import Mathlib

/-!
Verification development for the StorySync timeline-synchronization engine.

The engine is shallowly embedded: JavaScript numbers are modelled by exact
rationals (`ℚ`); the only place where IEEE special values matter — the
division by zero inside the renderer's scene-progress computation — is
modelled explicitly by the `JSNum` type, which mirrors ECMAScript semantics
for division by zero and for `Math.min` / `Math.max` NaN propagation.
Stateful React updates are modelled as pure functions from the project state
to the new project state.
-/

/-- Lifecycle of a scene's visual asset (the `status` string tag of the
source's `Scene` objects; the values are the ones written by `App.tsx`). -/
inductive SceneStatus where
  | pending
  | generating_image
  | ready
  | error
deriving DecidableEq

/-- One scene of the timeline (`Scene` in `types.ts`, as used throughout the
source). `startTime` is the offset in seconds into the audio track. -/
structure Scene where
  id : Nat
  prompt : String
  script : String
  startTime : ℚ
  imageUrl : Option String := none
  status : SceneStatus := .pending
deriving DecidableEq

instance : Inhabited Scene := ⟨⟨0, "", "", 0, none, .pending⟩⟩

/-- The project / timeline model (`ProjectData` in `types.ts`).  The opaque
decoded `audioBuffer` is represented only by its observable `duration`,
which is the single field of it the engine reads. -/
structure ProjectData where
  scenes : List Scene
  duration : ℚ
deriving DecidableEq

/-! ### A minimal model of the relevant ECMAScript number semantics

Finite arithmetic is exact (ℚ); only division may produce a special value,
exactly as IEEE-754 / ECMAScript prescribe for division by zero. -/

/-- A JavaScript number that is either finite (modelled exactly) or one of
the special values produced by division by zero. -/
inductive JSNum where
  | num (q : ℚ)
  | nan
  | posInf
  | negInf
deriving DecidableEq

/-- ECMAScript division restricted to finite operands: division by zero
yields `NaN` for `0/0` and signed infinities otherwise. -/
def jsDiv (a b : ℚ) : JSNum :=
  if b = 0 then
    if a = 0 then .nan else if 0 < a then .posInf else .negInf
  else .num (a / b)

/-- `Math.min(a, x)` for a finite first operand: NaN propagates, an infinity
compares as expected. -/
def jsMinConst (a : ℚ) : JSNum → JSNum
  | .num q => .num (min a q)
  | .nan => .nan
  | .posInf => .num a
  | .negInf => .negInf

/-- `Math.max(a, x)` for a finite first operand: NaN propagates, an infinity
compares as expected. -/
def jsMaxConst (a : ℚ) : JSNum → JSNum
  | .num q => .num (max a q)
  | .nan => .nan
  | .posInf => .posInf
  | .negInf => .num a

/-! ### JavaScript array-iteration primitives

`Array.prototype.reduce`, `map` and `findIndex` pass the element index to
their callback; these recursors mirror that (`findIndex`'s `-1` sentinel is
rendered as `none`). -/

/-- Worker for `reduceIndexed`, carrying the current element index. -/
def reduceIndexedGo (f : β → α → Nat → β) : β → List α → Nat → β
  | acc, [], _ => acc
  | acc, a :: as, i => reduceIndexedGo f (f acc a i) as (i + 1)

/-- `Array.prototype.reduce` with an index-aware callback and an initial
accumulator. -/
def reduceIndexed (f : β → α → Nat → β) (acc : β) (l : List α) : β :=
  reduceIndexedGo f acc l 0

/-- Worker for `mapIndexed`, carrying the current element index. -/
def mapIndexedGo (f : α → Nat → β) : List α → Nat → List β
  | [], _ => []
  | a :: as, i => f a i :: mapIndexedGo f as (i + 1)

/-- `Array.prototype.map` with an index-aware callback. -/
def mapIndexed (f : α → Nat → β) (l : List α) : List β :=
  mapIndexedGo f l 0

/-- `Array.prototype.findIndex`: index of the first element satisfying the
predicate, `none` when there is none (JavaScript returns `-1`). -/
def findIndex (p : α → Bool) : List α → Option Nat
  | [] => none
  | a :: as => if p a then some 0 else (findIndex p as).map (· + 1)

/-! ### The Scene Resolver (two call sites)

`Player.tsx` lines 36–38 and `videoRecorder.ts` lines 142–144 each compute
the active scene with a `reduce` over the scene array. -/

/-- Active-scene computation of the interactive player
(`Player.tsx` lines 36–38). -/
def activeSceneIndexPlayer (scenes : List Scene) (currentTime : ℚ) : Nat :=
  reduceIndexed
    (fun bestIndex scene idx => if scene.startTime ≤ currentTime then idx else bestIndex)
    0 scenes

/-- Active-scene computation of the offline renderer
(`videoRecorder.ts` `drawFrame`, lines 142–144). -/
def activeSceneIndexRecorder (scenes : List Scene) (currentTime : ℚ) : Nat :=
  reduceIndexed
    (fun bestIndex scene idx => if scene.startTime ≤ currentTime then idx else bestIndex)
    0 scenes

/-! ### The offline renderer's per-frame scene state (`videoRecorder.ts`) -/

/-- The scene object the renderer draws
(`const scene = project.scenes[activeSceneIndex]`, line 145). -/
def drawFrameScene (scenes : List Scene) (currentTime : ℚ) : Scene :=
  scenes.getD (activeSceneIndexRecorder scenes currentTime) default

/-- `nextStartTime` of `drawFrame` (lines 148–150): the next scene's start
time by array order when a next scene exists, else the total duration. -/
def drawFrameNextStart (scenes : List Scene) (duration currentTime : ℚ) : ℚ :=
  if activeSceneIndexRecorder scenes currentTime < scenes.length - 1 then
    (scenes.getD (activeSceneIndexRecorder scenes currentTime + 1) default).startTime
  else duration

/-- `sceneProgress` of `drawFrame` (lines 152–153):
`Math.max(0, Math.min(1, (currentTime - scene.startTime) / sceneDuration))`
with `sceneDuration = nextStartTime - scene.startTime`. -/
def drawFrameSceneProgress (scenes : List Scene) (duration currentTime : ℚ) : JSNum :=
  jsMaxConst 0 (jsMinConst 1
    (jsDiv (currentTime - (drawFrameScene scenes currentTime).startTime)
      (drawFrameNextStart scenes duration currentTime
        - (drawFrameScene scenes currentTime).startTime)))

/-- The Ken Burns zoom scale of `drawFrame` (lines 160–170), as a function
of the active scene index and the already computed scene progress: even
index zooms in `1.0 → 1.25`, odd index zooms out `1.25 → 1.0`. -/
def kenBurnsScale (activeIdx : Nat) (sceneProgress : ℚ) : ℚ :=
  if activeIdx % 2 = 0 then 1 + 0.25 * sceneProgress
  else 1.25 - 0.25 * sceneProgress

/-! ### Timeline Model operations (`App.tsx`) -/

/-- The mismatch message thrown by `initializeProject` (line 138). -/
def mismatchMessage (numPrompts numScripts : Nat) : String :=
  "Mismatch: " ++ toString numPrompts ++ " prompts vs " ++ toString numScripts
    ++ " script lines. They must act as pairs."

/-- Project creation (`initializeProject`, `App.tsx` lines 132–161), from
the already parsed prompt and script lines and the decoded audio duration:
fails when the counts differ, otherwise builds evenly spaced scenes with
`startTime = idx * (duration / count)`. -/
def initializeProject (prompts scripts : List String) (duration : ℚ) :
    Except String ProjectData :=
  if prompts.length ≠ scripts.length then
    .error (mismatchMessage prompts.length scripts.length)
  else
    .ok
      { scenes :=
          mapIndexed
            (fun ps idx =>
              { id := idx + 1
                prompt := ps.1.trim
                script := ps.2.trim
                startTime := (idx : ℚ) * (duration / (prompts.length : ℚ))
                imageUrl := none
                status := .pending })
            (prompts.zip scripts)
        duration := duration }

/-- `handleAutoAlign` (`App.tsx` lines 226–234): resets every scene's
`startTime` to `idx * (duration / count)`. -/
def handleAutoAlign (project : ProjectData) : ProjectData :=
  { project with
      scenes :=
        mapIndexed
          (fun s idx =>
            { s with startTime := (idx : ℚ) * (project.duration / (project.scenes.length : ℚ)) })
          project.scenes }

/-- `handleRecordSync` (`App.tsx` lines 236–253): find the first scene whose
`startTime` is strictly in the future, and snap it to `currentTime` unless
that would place it before the immediately preceding scene's `startTime`. -/
def handleRecordSync (project : ProjectData) (currentTime : ℚ) : ProjectData :=
  match findIndex (fun s => decide (currentTime < s.startTime)) project.scenes with
  | none => project
  | some nextSceneIndex =>
      let prevSceneTime :=
        if 0 < nextSceneIndex then
          (project.scenes.getD (nextSceneIndex - 1) default).startTime
        else 0
      if prevSceneTime ≤ currentTime then
        { project with
            scenes :=
              project.scenes.set nextSceneIndex
                { project.scenes.getD nextSceneIndex default with startTime := currentTime } }
      else project

/-- One iteration of the `generateVisuals` loop (`App.tsx` lines 180–209):
on success the scene receives its image and becomes `ready`; a thrown
per-scene failure is caught and only sets that scene's status to `error`. -/
def generateVisualsStep (scene : Scene) : Option String → Scene
  | some url => { scene with imageUrl := some url, status := .ready }
  | none => { scene with status := .error }

/-- Worker for `generateVisuals`, carrying the loop index.  The recursion
continues after both the success and the caught-failure branch, mirroring
the `try`/`catch` inside the sequential `for` loop. -/
def generateVisualsGo (outcome : Nat → Option String) : List Scene → Nat → List Scene
  | [], _ => []
  | scene :: rest, i =>
      generateVisualsStep scene (outcome i) :: generateVisualsGo outcome rest (i + 1)

/-- `generateVisuals` (`App.tsx` lines 176–210): sequential per-scene visual
generation.  The external `generateSceneImage` collaborator is modelled by
`outcome`, giving each loop iteration's result (`some url` on success,
`none` when the call throws). -/
def generateVisuals (scenes : List Scene) (outcome : Nat → Option String) : List Scene :=
  generateVisualsGo outcome scenes 0

/-! ### Properties of the Scene Resolver -/

/-- The resolver fold with explicit accumulator and running index, used to
reason about `activeSceneIndexPlayer` / `activeSceneIndexRecorder` by
induction. -/
def resolveGo (t : ℚ) (acc : Nat) (l : List Scene) (i : Nat) : Nat :=
  reduceIndexedGo
    (fun bestIndex scene idx => if scene.startTime ≤ t then idx else bestIndex) acc l i

lemma activeSceneIndexPlayer_eq_go (scenes : List Scene) (t : ℚ) :
    activeSceneIndexPlayer scenes t = resolveGo t 0 scenes 0 := rfl

lemma activeSceneIndexRecorder_eq_go (scenes : List Scene) (t : ℚ) :
    activeSceneIndexRecorder scenes t = resolveGo t 0 scenes 0 := rfl

@[simp] lemma resolveGo_nil (t : ℚ) (acc i : Nat) : resolveGo t acc [] i = acc := rfl

@[simp] lemma resolveGo_cons (t : ℚ) (acc i : Nat) (a : Scene) (as : List Scene) :
    resolveGo t acc (a :: as) i
      = resolveGo t (if a.startTime ≤ t then i else acc) as (i + 1) := rfl

/-- The fold either keeps its accumulator or returns the running index of a
qualifying scene. -/
lemma resolveGo_mem (t : ℚ) :
    ∀ (l : List Scene) (i acc : Nat),
      resolveGo t acc l i = acc ∨
        ∃ j, ∃ hj : j < l.length,
          resolveGo t acc l i = i + j ∧ (l.get ⟨j, hj⟩).startTime ≤ t := by
  intro l
  induction l with
  | nil => intro i acc; left; rfl
  | cons a as ih =>
    intro i acc
    rw [resolveGo_cons]
    by_cases ha : a.startTime ≤ t
    · rw [if_pos ha]
      rcases ih (i + 1) i with h | ⟨j, hj, hres, hq⟩
      · right
        exact ⟨0, by simp, by simpa using h, by simpa using ha⟩
      · right
        refine ⟨j + 1, by simpa using Nat.succ_lt_succ hj, ?_, by simpa using hq⟩
        rw [hres]; omega
    · rw [if_neg ha]
      rcases ih (i + 1) acc with h | ⟨j, hj, hres, hq⟩
      · left; exact h
      · right
        refine ⟨j + 1, by simpa using Nat.succ_lt_succ hj, ?_, by simpa using hq⟩
        rw [hres]; omega

/-- Any qualifying scene's running index is a lower bound for the fold's
result (the fold keeps the *last* qualifying index). -/
lemma resolveGo_ge (t : ℚ) :
    ∀ (l : List Scene) (i acc : Nat), acc ≤ i →
      ∀ j (hj : j < l.length), (l.get ⟨j, hj⟩).startTime ≤ t →
        i + j ≤ resolveGo t acc l i := by
  intro l
  induction l with
  | nil => intro i acc _ j hj; exact absurd hj (by simp)
  | cons a as ih =>
    intro i acc hacc j hj hq
    rw [resolveGo_cons]
    cases j with
    | zero =>
      have ha : a.startTime ≤ t := by simpa using hq
      rw [if_pos ha]
      rcases resolveGo_mem t as (i + 1) i with h | ⟨j', hj', hres, _⟩
      · omega
      · omega
    | succ j' =>
      have hj' : j' < as.length := by simpa using hj
      have hq' : (as.get ⟨j', hj'⟩).startTime ≤ t := by simpa using hq
      have := ih (i + 1) (if a.startTime ≤ t then i else acc)
        (by split <;> omega) j' hj' hq'
      omega

/-- When no scene qualifies, the fold returns its accumulator. -/
lemma resolveGo_none (t : ℚ) :
    ∀ (l : List Scene) (i acc : Nat),
      (∀ j (hj : j < l.length), ¬ (l.get ⟨j, hj⟩).startTime ≤ t) →
      resolveGo t acc l i = acc := by
  intro l
  induction l with
  | nil => intro i acc _; rfl
  | cons a as ih =>
    intro i acc hnone
    rw [resolveGo_cons, if_neg (by simpa using hnone 0 (by simp))]
    exact ih (i + 1) acc (fun j hj => by simpa using hnone (j + 1) (by simpa using Nat.succ_lt_succ hj))

/-- `List.getD` at an in-range index is `List.get`. -/
lemma listGetD_eq_get {α : Type} [Inhabited α] :
    ∀ (l : List α) (j : Nat) (hj : j < l.length), l.getD j default = l.get ⟨j, hj⟩ := by
  intro l
  induction l with
  | nil => intro j hj; exact absurd hj (by simp)
  | cons a as ih =>
    intro j hj
    cases j with
    | zero => rfl
    | succ j' => simpa using ih j' (by simpa using hj)

/-- C1: for every scene list and every time value, the active-scene resolver
returns the greatest array index whose scene satisfies `startTime ≤ time`
(the returned index itself qualifies and bounds every qualifying index from
above), and returns index 0 when no scene qualifies; no monotonicity of the
`startTime` sequence is assumed. -/
theorem activeSceneIndex_greatest (scenes : List Scene) (time : ℚ) :
    (∀ j (hj : j < scenes.length), (scenes.get ⟨j, hj⟩).startTime ≤ time →
        j ≤ activeSceneIndexPlayer scenes time)
    ∧ ((∃ j, ∃ hj : j < scenes.length, (scenes.get ⟨j, hj⟩).startTime ≤ time) →
        ∃ hr : activeSceneIndexPlayer scenes time < scenes.length,
          (scenes.get ⟨activeSceneIndexPlayer scenes time, hr⟩).startTime ≤ time)
    ∧ ((∀ j (hj : j < scenes.length), ¬ (scenes.get ⟨j, hj⟩).startTime ≤ time) →
        activeSceneIndexPlayer scenes time = 0) := by
  refine ⟨?_, ?_, ?_⟩
  · intro j hj hq
    rw [activeSceneIndexPlayer_eq_go]
    have := resolveGo_ge time scenes 0 0 le_rfl j hj hq
    omega
  · rintro ⟨j, hj, hq⟩
    have hge := resolveGo_ge time scenes 0 0 le_rfl j hj hq
    rw [activeSceneIndexPlayer_eq_go]
    rcases resolveGo_mem time scenes 0 0 with h | ⟨j', hj', hres, hq'⟩
    · have hj0 : j = 0 := by omega
      subst hj0
      rw [h]
      exact ⟨hj, hq⟩
    · have hrj : resolveGo time 0 scenes 0 = j' := by omega
      rw [hrj]
      exact ⟨hj', hq'⟩
  · intro hnone
    rw [activeSceneIndexPlayer_eq_go]
    exact resolveGo_none time scenes 0 0 hnone

/-- Shared concrete example: a deliberately non-monotonic scene list with
start times `[5, 1, 9]`. -/
def exScenes : List Scene :=
  [⟨1, "", "", 5, none, .pending⟩, ⟨2, "", "", 1, none, .pending⟩,
    ⟨3, "", "", 9, none, .pending⟩]

/-- C1 witness: on the non-monotonic list with start times `[5, 1, 9]` at
time 3, index 1 qualifies, so the resolver's result is at least 1 (it is in
fact exactly 1). -/
theorem activeSceneIndex_greatest_witness :
    1 ≤ activeSceneIndexPlayer exScenes 3 ∧ activeSceneIndexPlayer exScenes 3 = 1 := by
  refine ⟨(activeSceneIndex_greatest exScenes 3).1 1 (by decide) (by decide), by decide⟩

/-- C2: the interactive player (`Player.tsx` lines 36–38) and the offline
renderer (`videoRecorder.ts` lines 142–144) compute the identical active
scene index for every `(scenes, time)` pair. -/
theorem player_recorder_resolver_parity :
    ∀ (scenes : List Scene) (time : ℚ),
      activeSceneIndexPlayer scenes time = activeSceneIndexRecorder scenes time :=
  fun _ _ => rfl

/-- C8 counterexample: for the non-monotonic start times `[5, 1, 9]` and
time `3 < 5 = scenes[0].startTime`, the resolver returns index 1, not 0 —
the claim's universal statement over non-monotonic sequences is false. -/
theorem resolve_before_first_counterexample :
    (exScenes.getD 0 default).startTime = 5 ∧ (3 : ℚ) < 5
      ∧ activeSceneIndexPlayer exScenes 3 = 1 ∧ (1 : Nat) ≠ 0 := by
  refine ⟨by decide, by decide, by decide, by decide⟩

/-- C8 (amended): for every non-empty scene sequence whose `startTime`s are
monotone non-decreasing in array order, and every time value strictly less
than `scenes[0].startTime`, the resolver returns index 0. -/
theorem resolve_before_first_monotone (scenes : List Scene) (time : ℚ)
    (hmono : (scenes.map (fun s => s.startTime)).Pairwise (· ≤ ·))
    (hne : scenes ≠ [])
    (hlt : time < (scenes.getD 0 default).startTime) :
    activeSceneIndexPlayer scenes time = 0 := by
  have hlen : 0 < scenes.length := List.length_pos.mpr hne
  rw [activeSceneIndexPlayer_eq_go]
  apply resolveGo_none
  intro j hj hq
  have h0j : (scenes.get ⟨0, hlen⟩).startTime ≤ (scenes.get ⟨j, hj⟩).startTime := by
    rcases Nat.eq_zero_or_pos j with hj0 | hjpos
    · subst hj0; exact le_refl _
    · have := (List.pairwise_iff_get.mp hmono)
        ⟨0, by simpa using hlen⟩ ⟨j, by simpa using hj⟩ hjpos
      simpa using this
  rw [listGetD_eq_get scenes 0 hlen] at hlt
  exact absurd hq (by push_neg; exact lt_of_lt_of_le hlt h0j)

/-- Shared concrete example: a monotone scene list with start times `[1, 5]`. -/
def exMonoScenes : List Scene :=
  [⟨1, "", "", 1, none, .pending⟩, ⟨2, "", "", 5, none, .pending⟩]

/-- C8 witness: on the monotone list with start times `[1, 5]` at time 0
(before the first scene's start), the resolver returns 0. -/
theorem resolve_before_first_monotone_witness :
    activeSceneIndexPlayer exMonoScenes 0 = 0 :=
  resolve_before_first_monotone exMonoScenes 0 (by decide) (by decide) (by decide)

/-! ### Index-aware map lemmas -/

lemma mapIndexedGo_length (f : α → Nat → β) :
    ∀ (l : List α) (n : Nat), (mapIndexedGo f l n).length = l.length := by
  intro l
  induction l with
  | nil => intro n; rfl
  | cons a as ih => intro n; simpa [mapIndexedGo] using ih (n + 1)

lemma mapIndexed_length (f : α → Nat → β) (l : List α) :
    (mapIndexed f l).length = l.length := mapIndexedGo_length f l 0

lemma mapIndexedGo_get (f : α → Nat → β) :
    ∀ (l : List α) (n j : Nat) (hj : j < l.length)
      (hj' : j < (mapIndexedGo f l n).length),
      (mapIndexedGo f l n).get ⟨j, hj'⟩ = f (l.get ⟨j, hj⟩) (n + j) := by
  intro l
  induction l with
  | nil => intro n j hj; exact absurd hj (by simp)
  | cons a as ih =>
    intro n j hj hj'
    cases j with
    | zero => rfl
    | succ j' =>
      have hj'' : j' < as.length := by simpa using hj
      have := ih (n + 1) j' hj'' (by simpa [mapIndexedGo_length] using hj'')
      simpa [mapIndexedGo, Nat.add_assoc, Nat.add_comm 1 j'] using this

lemma mapIndexed_get (f : α → Nat → β) (l : List α) (j : Nat) (hj : j < l.length)
    (hj' : j < (mapIndexed f l).length) :
    (mapIndexed f l).get ⟨j, hj'⟩ = f (l.get ⟨j, hj⟩) j := by
  simpa using mapIndexedGo_get f l 0 j hj hj'

/-! ### C4: project creation -/

/-- C4: project creation fails with the mismatch error when the prompt count
differs from the script count — no project value is produced at all — and on
success with `n` prompt/script pairs and audio duration `d` it builds exactly
`n` scenes whose `startTime` is `index * (d / n)`. -/
theorem initializeProject_spec (prompts scripts : List String) (d : ℚ) :
    (prompts.length ≠ scripts.length →
        initializeProject prompts scripts d
          = .error (mismatchMessage prompts.length scripts.length))
    ∧ (prompts.length = scripts.length →
        ∃ proj, initializeProject prompts scripts d = .ok proj
          ∧ proj.scenes.length = prompts.length
          ∧ ∀ j, j < prompts.length →
              (proj.scenes.getD j default).startTime
                = (j : ℚ) * (d / (prompts.length : ℚ))) := by
  constructor
  · intro hne
    rw [initializeProject, if_pos hne]
  · intro heq
    refine ⟨_, by rw [initializeProject, if_neg (by simpa using heq)], ?_, ?_⟩
    · rw [mapIndexed_length, List.length_zip, heq, Nat.min_self]
    · intro j hj
      have hlen : j < ((prompts.zip scripts)).length := by
        rw [List.length_zip]; omega
      have hlen' : j < (mapIndexed (fun (ps : String × String) idx =>
          ({ id := idx + 1, prompt := ps.1.trim, script := ps.2.trim,
             startTime := (idx : ℚ) * (d / (prompts.length : ℚ)),
             imageUrl := none, status := .pending } : Scene)) (prompts.zip scripts)).length := by
        rw [mapIndexed_length]; exact hlen
      rw [listGetD_eq_get _ j hlen', mapIndexed_get _ _ j hlen hlen']

/-- C4 witness: two prompts against one script line fail with the mismatch
error, producing no project. -/
theorem initializeProject_spec_witness :
    initializeProject ["a", "b"] ["x"] 30 = .error (mismatchMessage 2 1) :=
  (initializeProject_spec ["a", "b"] ["x"] 30).1 (by decide)

/-! ### C6: auto-align and the resolver -/

lemma handleAutoAlign_length (p : ProjectData) :
    (handleAutoAlign p).scenes.length = p.scenes.length := by
  simp [handleAutoAlign, mapIndexed_length]

lemma handleAutoAlign_startTime (p : ProjectData) (j : Nat) (hj : j < p.scenes.length) :
    ∀ hj' : j < (handleAutoAlign p).scenes.length,
      ((handleAutoAlign p).scenes.get ⟨j, hj'⟩).startTime
        = (j : ℚ) * (p.duration / (p.scenes.length : ℚ)) := by
  intro hj'
  have : (handleAutoAlign p).scenes.get ⟨j, hj'⟩
      = { p.scenes.get ⟨j, hj⟩ with
          startTime := (j : ℚ) * (p.duration / (p.scenes.length : ℚ)) } := by
    simpa [handleAutoAlign] using
      mapIndexed_get (fun (s : Scene) idx =>
        { s with startTime := (idx : ℚ) * (p.duration / (p.scenes.length : ℚ)) })
        p.scenes j hj (by simpa [handleAutoAlign] using hj')
  rw [this]

/-- C6 (amended): for a project with `n ≥ 1` scenes and *positive* duration
`d`, auto-align resets every scene's `startTime` to `index * (d / n)`, and
afterwards resolving time `k * (d / n)` returns active index exactly `k` for
every `k < n`. -/
theorem autoAlign_resolver_inverse (p : ProjectData) (k : Nat)
    (hd : 0 < p.duration) (hk : k < p.scenes.length) :
    (∀ j, ∀ hj : j < (handleAutoAlign p).scenes.length,
        ((handleAutoAlign p).scenes.get ⟨j, hj⟩).startTime
          = (j : ℚ) * (p.duration / (p.scenes.length : ℚ)))
    ∧ activeSceneIndexRecorder (handleAutoAlign p).scenes
        ((k : ℚ) * (p.duration / (p.scenes.length : ℚ))) = k := by
  have hn : (0 : ℚ) < (p.scenes.length : ℚ) := by
    exact_mod_cast Nat.pos_of_ne_zero (by omega)
  have hivl : 0 < p.duration / (p.scenes.length : ℚ) := div_pos hd hn
  constructor
  · intro j hj
    exact handleAutoAlign_startTime p j (by rwa [handleAutoAlign_length] at hj) hj
  · have hk' : k < (handleAutoAlign p).scenes.length := by
      rwa [handleAutoAlign_length]
    have hqk : ((handleAutoAlign p).scenes.get ⟨k, hk'⟩).startTime
        ≤ (k : ℚ) * (p.duration / (p.scenes.length : ℚ)) :=
      le_of_eq (handleAutoAlign_startTime p k hk hk')
    rw [activeSceneIndexRecorder_eq_go]
    have hge := resolveGo_ge ((k : ℚ) * (p.duration / (p.scenes.length : ℚ)))
      (handleAutoAlign p).scenes 0 0 le_rfl k hk' hqk
    rcases resolveGo_mem ((k : ℚ) * (p.duration / (p.scenes.length : ℚ)))
        (handleAutoAlign p).scenes 0 0 with h | ⟨j, hj, hres, hq⟩
    · omega
    · rw [handleAutoAlign_startTime p j (by rwa [handleAutoAlign_length] at hj) hj] at hq
      have : j ≤ k := by exact_mod_cast le_of_mul_le_mul_right hq hivl
      omega

/-- Shared concrete example: a two-scene project with zero audio duration. -/
def exZeroDurProject : ProjectData :=
  ⟨[⟨1, "", "", 3, none, .pending⟩, ⟨2, "", "", 1, none, .pending⟩], 0⟩

/-- C6 counterexample: with `n = 2` scenes and duration `d = 0`, auto-align
sets both start times to `0 = index * (d / n)`, but resolving time
`0 * (d / n) = 0` returns index 1, not 0: the claim fails for `d = 0`. -/
theorem autoAlign_resolver_counterexample :
    (handleAutoAlign exZeroDurProject).scenes.map (fun s => s.startTime) = [0, 0]
    ∧ activeSceneIndexRecorder (handleAutoAlign exZeroDurProject).scenes
        ((0 : ℚ) * (exZeroDurProject.duration / (exZeroDurProject.scenes.length : ℚ))) = 1
    ∧ (1 : Nat) ≠ 0 ∧ (0 : Nat) < exZeroDurProject.scenes.length := by
  refine ⟨?_, ?_, by decide, by decide⟩
  · norm_num [exZeroDurProject, handleAutoAlign, mapIndexed, mapIndexedGo]
  · norm_num [exZeroDurProject, handleAutoAlign, mapIndexed, mapIndexedGo,
      activeSceneIndexRecorder, reduceIndexed, reduceIndexedGo]

/-- Shared concrete example: a two-scene project with duration 10. -/
def exDurTenProject : ProjectData :=
  ⟨[⟨1, "", "", 3, none, .pending⟩, ⟨2, "", "", 1, none, .pending⟩], 10⟩

/-- C6 witness: for the two-scene project of duration 10, after auto-align
resolving time `1 * (10 / 2)` returns index 1. -/
theorem autoAlign_resolver_inverse_witness :
    activeSceneIndexRecorder (handleAutoAlign exDurTenProject).scenes
      ((1 : ℚ) * (exDurTenProject.duration / (exDurTenProject.scenes.length : ℚ))) = 1 :=
  (autoAlign_resolver_inverse exDurTenProject 1 (by norm_num [exDurTenProject])
    (by decide)).2

/-! ### C9: sequential visual generation -/

lemma generateVisualsGo_length (outcome : Nat → Option String) :
    ∀ (l : List Scene) (n : Nat), (generateVisualsGo outcome l n).length = l.length := by
  intro l
  induction l with
  | nil => intro n; rfl
  | cons a as ih => intro n; simpa [generateVisualsGo] using ih (n + 1)

lemma generateVisualsGo_get (outcome : Nat → Option String) :
    ∀ (l : List Scene) (n j : Nat) (hj : j < l.length)
      (hj' : j < (generateVisualsGo outcome l n).length),
      (generateVisualsGo outcome l n).get ⟨j, hj'⟩
        = generateVisualsStep (l.get ⟨j, hj⟩) (outcome (n + j)) := by
  intro l
  induction l with
  | nil => intro n j hj; exact absurd hj (by simp)
  | cons a as ih =>
    intro n j hj hj'
    cases j with
    | zero => rfl
    | succ j' =>
      have hj'' : j' < as.length := by simpa using hj
      have := ih (n + 1) j' hj'' (by simpa [generateVisualsGo_length] using hj'')
      simpa [generateVisualsGo, Nat.add_assoc, Nat.add_comm 1 j'] using this

/-- C9: in sequential visual generation, each scene's final state is a
function of its own outcome alone: with `n` input scenes the result has `n`
scenes; a scene whose generation succeeds with `url` ends `ready` with that
`imageUrl` and all other fields unchanged; a scene whose generation fails
ends with only its status set to `error` (every other field, including
`imageUrl`, unchanged).  Failures never abort the batch: every scene is
still mapped through its own outcome, and a failure at one index leaves
every other scene's fields untouched. -/
theorem generateVisuals_isolation (scenes : List Scene) (outcome : Nat → Option String)
    (i : Nat) (hi : i < scenes.length) :
    (generateVisuals scenes outcome).length = scenes.length
    ∧ (∀ url, outcome i = some url →
        (generateVisuals scenes outcome).getD i default
          = { scenes.getD i default with imageUrl := some url, status := .ready })
    ∧ (outcome i = none →
        (generateVisuals scenes outcome).getD i default
          = { scenes.getD i default with status := .error }) := by
  have hlen : (generateVisuals scenes outcome).length = scenes.length :=
    generateVisualsGo_length outcome scenes 0
  have hi' : i < (generateVisuals scenes outcome).length := by rwa [hlen]
  have hget : (generateVisuals scenes outcome).getD i default
      = generateVisualsStep (scenes.getD i default) (outcome i) := by
    rw [listGetD_eq_get _ i hi', listGetD_eq_get _ i hi]
    simpa using generateVisualsGo_get outcome scenes 0 i hi hi'
  refine ⟨hlen, ?_, ?_⟩
  · intro url hurl
    rw [hget, hurl, generateVisualsStep]
  · intro hfail
    rw [hget, hfail, generateVisualsStep]

/-- The generation-outcome pattern used by the C9 witness: the call for
scene index 1 throws, the others succeed. -/
def exOutcome : Nat → Option String := fun n => if n = 1 then none else some "img"

/-- C9 witness: on the three-scene example with a failure at index 1, scene 1
ends with status `error` and its other fields (including `imageUrl`)
unchanged, per the general isolation theorem. -/
theorem generateVisuals_isolation_witness :
    (generateVisuals exScenes exOutcome).getD 1 default
      = { exScenes.getD 1 default with status := .error } :=
  (generateVisuals_isolation exScenes exOutcome 1 (by decide)).2.2 (by decide)

/-! ### C5 / C10: the live-sync controller -/

lemma findIndex_lt_length {α : Type} (p : α → Bool) :
    ∀ (l : List α) (i : Nat), findIndex p l = some i → i < l.length := by
  intro l
  induction l with
  | nil => intro i h; exact absurd h (by simp [findIndex])
  | cons a as ih =>
    intro i h
    rw [findIndex] at h
    by_cases hp : p a
    · rw [if_pos hp] at h
      cases h
      simp
    · rw [if_neg hp] at h
      rcases Option.map_eq_some'.mp h with ⟨i', hi', rfl⟩
      simpa using ih i' hi'

lemma findIndex_found {α : Type} (p : α → Bool) :
    ∀ (l : List α) (i : Nat), findIndex p l = some i →
      ∀ hi : i < l.length, p (l.get ⟨i, hi⟩) = true := by
  intro l
  induction l with
  | nil => intro i h; exact absurd h (by simp [findIndex])
  | cons a as ih =>
    intro i h hi
    rw [findIndex] at h
    by_cases hp : p a
    · rw [if_pos hp] at h
      cases h
      simpa using hp
    · rw [if_neg hp] at h
      rcases Option.map_eq_some'.mp h with ⟨i', hi', rfl⟩
      simpa using ih i' hi' (by simpa using hi)

lemma findIndex_earlier {α : Type} (p : α → Bool) :
    ∀ (l : List α) (i : Nat), findIndex p l = some i →
      ∀ j, j < i → ∀ hj : j < l.length, p (l.get ⟨j, hj⟩) = false := by
  intro l
  induction l with
  | nil => intro i h; exact absurd h (by simp [findIndex])
  | cons a as ih =>
    intro i h j hji hj
    rw [findIndex] at h
    by_cases hp : p a
    · rw [if_pos hp] at h
      cases h
      exact absurd hji (by omega)
    · rw [if_neg hp] at h
      rcases Option.map_eq_some'.mp h with ⟨i', hi', rfl⟩
      cases j with
      | zero => simpa using hp
      | succ j' => simpa using ih i' hi' j' (by omega) (by simpa using hj)

/-- `List.set` at one index leaves every other index unchanged. -/
lemma listGetD_set_ne {α : Type} [Inhabited α] :
    ∀ (l : List α) (i j : Nat) (a : α), j ≠ i →
      (l.set i a).getD j default = l.getD j default := by
  intro l
  induction l with
  | nil => intro i j a _; simp
  | cons b bs ih =>
    intro i j a hne
    cases i with
    | zero =>
      cases j with
      | zero => exact absurd rfl hne
      | succ j' => simp [List.set]
    | succ i' =>
      cases j with
      | zero => simp [List.set]
      | succ j' => simpa [List.set] using ih i' j' a (by omega)

/-- The accept branch of `handleRecordSync`: a future scene was found and the
ordering guard passes, so exactly that scene's `startTime` is set. -/
lemma handleRecordSync_accept (p : ProjectData) (t : ℚ) (i : Nat)
    (hfind : findIndex (fun s => decide (t < s.startTime)) p.scenes = some i)
    (hguard : (if 0 < i then (p.scenes.getD (i - 1) default).startTime else 0) ≤ t) :
    handleRecordSync p t
      = { p with scenes :=
          (p.scenes.set i { p.scenes.getD i default with startTime := t }) } := by
  rw [handleRecordSync, hfind]
  simp only []
  rw [if_pos hguard]

/-- The reject branch of `handleRecordSync`: the guard fails, state unchanged. -/
lemma handleRecordSync_reject (p : ProjectData) (t : ℚ) (i : Nat)
    (hfind : findIndex (fun s => decide (t < s.startTime)) p.scenes = some i)
    (hguard : t < (if 0 < i then (p.scenes.getD (i - 1) default).startTime else 0)) :
    handleRecordSync p t = p := by
  rw [handleRecordSync, hfind]
  simp only []
  rw [if_neg (by push_neg; exact hguard)]

/-- When no scene starts in the future, `handleRecordSync` is a no-op. -/
lemma handleRecordSync_none (p : ProjectData) (t : ℚ)
    (hfind : findIndex (fun s => decide (t < s.startTime)) p.scenes = none) :
    handleRecordSync p t = p := by
  rw [handleRecordSync, hfind]

/-- C5 (amended): `recordSync` snaps the first scene by array order whose
`startTime > currentTime` to `startTime = currentTime`, mutating exactly
that one scene, and is a silent no-op when `currentTime` is below the
immediately preceding scene's `startTime` (or when no scene starts in the
future).  In the `[0, 5, 10]` scenario the sync at time 7 sets scene index
2's start to 7; the subsequent sync at time 3 is *accepted* (it sets scene
index 1's start to 3), not rejected — see the counterexample. -/
theorem handleRecordSync_spec (p : ProjectData) (t : ℚ) :
    (findIndex (fun s => decide (t < s.startTime)) p.scenes = none →
        handleRecordSync p t = p)
    ∧ (∀ i, findIndex (fun s => decide (t < s.startTime)) p.scenes = some i →
        ((if 0 < i then (p.scenes.getD (i - 1) default).startTime else 0) ≤ t →
            handleRecordSync p t
              = { p with scenes :=
                  (p.scenes.set i { p.scenes.getD i default with startTime := t }) }
            ∧ ((handleRecordSync p t).scenes.getD i default
                = { p.scenes.getD i default with startTime := t })
            ∧ ∀ j, j ≠ i →
                (handleRecordSync p t).scenes.getD j default = p.scenes.getD j default)
        ∧ (t < (if 0 < i then (p.scenes.getD (i - 1) default).startTime else 0) →
            handleRecordSync p t = p)) := by
  refine ⟨handleRecordSync_none p t, ?_⟩
  intro i hfind
  constructor
  · intro hguard
    have hset := handleRecordSync_accept p t i hfind hguard
    have hlen : i < p.scenes.length := findIndex_lt_length _ p.scenes i hfind
    refine ⟨hset, ?_, ?_⟩
    · rw [hset]
      have hlen' : i < (p.scenes.set i
          { p.scenes.getD i default with startTime := t }).length := by
        simpa using hlen
      rw [listGetD_eq_get _ i hlen']
      simp
    · intro j hj
      rw [hset]
      exact listGetD_set_ne p.scenes i j _ hj
  · intro hguard
    exact handleRecordSync_reject p t i hfind hguard

/-- Shared concrete example: the spec's sync scenario, scenes at start times
`[0, 5, 10]` with duration 30. -/
def exSyncProject : ProjectData :=
  ⟨[⟨1, "", "", 0, none, .pending⟩, ⟨2, "", "", 5, none, .pending⟩,
    ⟨3, "", "", 10, none, .pending⟩], 30⟩

/-- C5 counterexample: after syncing at time 7 (start times become
`[0, 5, 7]`), the subsequent `recordSync` at time 3 is *not* rejected: it
mutates scene index 1's start time to 3, contradicting the claim that it is
rejected. -/
theorem handleRecordSync_second_sync_counterexample :
    (handleRecordSync exSyncProject 7).scenes.map (fun s => s.startTime) = [0, 5, 7]
    ∧ (handleRecordSync (handleRecordSync exSyncProject 7) 3).scenes.map
        (fun s => s.startTime) = [0, 3, 7]
    ∧ handleRecordSync (handleRecordSync exSyncProject 7) 3
        ≠ handleRecordSync exSyncProject 7 := by
  refine ⟨by decide, by decide, by decide⟩

/-- C5 witness: in the `[0, 5, 10]` scenario at time 7, the first future
scene is index 2, the guard passes, and exactly that scene's start time is
set to 7. -/
theorem handleRecordSync_spec_witness :
    handleRecordSync exSyncProject 7
      = { exSyncProject with scenes :=
          (exSyncProject.scenes.set 2
            { exSyncProject.scenes.getD 2 default with startTime := 7 }) } :=
  ((((handleRecordSync_spec exSyncProject 7).2 2 (by decide)).1 (by decide))).1

/-- C10: whenever some scene has `startTime > currentTime` and
`currentTime ≥ 0`, the ordering guard of `recordSync` always passes and the
mutation is applied: the reject branch is unreachable, because every scene
before the first future scene has `startTime ≤ currentTime` (and for index 0
the guard compares against 0). -/
theorem recordSync_guard_always_passes (p : ProjectData) (t : ℚ) (ht : 0 ≤ t)
    (i : Nat) (hfind : findIndex (fun s => decide (t < s.startTime)) p.scenes = some i) :
    (if 0 < i then (p.scenes.getD (i - 1) default).startTime else 0) ≤ t
    ∧ handleRecordSync p t
        = { p with scenes :=
            (p.scenes.set i { p.scenes.getD i default with startTime := t }) } := by
  have hguard : (if 0 < i then (p.scenes.getD (i - 1) default).startTime else 0) ≤ t := by
    by_cases hi : 0 < i
    · rw [if_pos hi]
      have hlen : i < p.scenes.length := findIndex_lt_length _ p.scenes i hfind
      have hjlen : i - 1 < p.scenes.length := by omega
      have hfalse := findIndex_earlier _ p.scenes i hfind (i - 1) (by omega) hjlen
      rw [listGetD_eq_get _ (i - 1) hjlen]
      have : ¬ (t < (p.scenes.get ⟨i - 1, hjlen⟩).startTime) := by
        simpa using hfalse
      linarith [not_lt.mp this]
    · rw [if_neg hi]; exact ht
  exact ⟨hguard, handleRecordSync_accept p t i hfind hguard⟩

/-- C10 witness: in the `[0, 5, 10]` scenario at time 7 the found index is 2
and the guard concretely passes (`5 ≤ 7`), so the mutation is applied. -/
theorem recordSync_guard_always_passes_witness :
    (if 0 < 2 then (exSyncProject.scenes.getD (2 - 1) default).startTime else 0) ≤ 7 :=
  (recordSync_guard_always_passes exSyncProject 7 (by decide) 2 (by decide)).1

/-! ### C7: the Ken Burns zoom scale -/

/-- C7: the renderer's zoom scale depends only on the parity of the active
index and the scene progress `p`: it is `1 + 0.25 * p` for an even index and
`1.25 - 0.25 * p` for an odd index; at `p = 0.5` it is exactly `1.125` for
both parities, and at `p = 0.2` it is `1.05` for an even index and `1.2`
for an odd index. -/
theorem kenBurnsScale_parity (i : Nat) (p : ℚ) :
    (i % 2 = 0 → kenBurnsScale i p = 1 + 0.25 * p)
    ∧ (i % 2 ≠ 0 → kenBurnsScale i p = 1.25 - 0.25 * p)
    ∧ kenBurnsScale i (0.5 : ℚ) = 1.125
    ∧ (i % 2 = 0 → kenBurnsScale i (0.2 : ℚ) = 1.05)
    ∧ (i % 2 ≠ 0 → kenBurnsScale i (0.2 : ℚ) = 1.2) := by
  refine ⟨?_, ?_, ?_, ?_, ?_⟩
  · intro h; rw [kenBurnsScale, if_pos h]
  · intro h; rw [kenBurnsScale, if_neg h]
  · by_cases h : i % 2 = 0
    · rw [kenBurnsScale, if_pos h]; norm_num
    · rw [kenBurnsScale, if_neg h]; norm_num
  · intro h; rw [kenBurnsScale, if_pos h]; norm_num
  · intro h; rw [kenBurnsScale, if_neg h]; norm_num

/-- C7 witness: both parity branches at progress `0.2` — even index 2 gives
scale `1.05`, odd index 3 gives scale `1.2`. -/
theorem kenBurnsScale_parity_witness :
    kenBurnsScale 2 (0.2 : ℚ) = 1.05 ∧ kenBurnsScale 3 (0.2 : ℚ) = 1.2 :=
  ⟨(kenBurnsScale_parity 2 (0.2 : ℚ)).2.2.2.1 (by decide),
    (kenBurnsScale_parity 3 (0.2 : ℚ)).2.2.2.2 (by decide)⟩

/-! ### C3: per-scene progress in the offline renderer -/

/-- With a non-empty scene list the resolver's index is in range. -/
lemma activeSceneIndexRecorder_lt_length (scenes : List Scene) (t : ℚ)
    (hne : scenes ≠ []) : activeSceneIndexRecorder scenes t < scenes.length := by
  rw [activeSceneIndexRecorder_eq_go]
  rcases resolveGo_mem t scenes 0 0 with h | ⟨j, hj, hres, _⟩
  · rw [h]; exact List.length_pos.mpr hne
  · omega

/-- The scene after the active one never qualifies: its start time is
strictly in the future. -/
lemma activeSceneIndexRecorder_succ_not_qualifying (scenes : List Scene) (t : ℚ)
    (h : activeSceneIndexRecorder scenes t + 1 < scenes.length) :
    t < (scenes.get ⟨activeSceneIndexRecorder scenes t + 1, h⟩).startTime := by
  by_contra hc
  push_neg at hc
  have := resolveGo_ge t scenes 0 0 le_rfl
    (activeSceneIndexRecorder scenes t + 1) h hc
  rw [← activeSceneIndexRecorder_eq_go] at this
  omega

/-- Within the renderer loop (`currentTime < duration`), the current time is
always strictly below the active scene's end boundary. -/
lemma lt_drawFrameNextStart (scenes : List Scene) (d t : ℚ)
    (htd : t < d) : t < drawFrameNextStart scenes d t := by
  rw [drawFrameNextStart]
  by_cases hlt : activeSceneIndexRecorder scenes t < scenes.length - 1
  · rw [if_pos hlt]
    have hsucc : activeSceneIndexRecorder scenes t + 1 < scenes.length := by omega
    rw [listGetD_eq_get _ _ hsucc]
    exact activeSceneIndexRecorder_succ_not_qualifying scenes t hsucc
  · rw [if_neg hlt]; exact htd

/-- The scene the renderer draws depends on the time only through the active
index. -/
lemma drawFrameScene_congr (scenes : List Scene) (t t' : ℚ)
    (h : activeSceneIndexRecorder scenes t = activeSceneIndexRecorder scenes t') :
    drawFrameScene scenes t = drawFrameScene scenes t' := by
  rw [drawFrameScene, drawFrameScene, h]

/-- The end boundary depends on the time only through the active index. -/
lemma drawFrameNextStart_congr (scenes : List Scene) (d t t' : ℚ)
    (h : activeSceneIndexRecorder scenes t = activeSceneIndexRecorder scenes t') :
    drawFrameNextStart scenes d t = drawFrameNextStart scenes d t' := by
  rw [drawFrameNextStart, drawFrameNextStart, h]

/-- The finite-window form of the renderer's progress: when the end boundary
differs from the start, the progress is the exact clamped ratio. -/
lemma drawFrameSceneProgress_of_ne (scenes : List Scene) (d t : ℚ)
    (hne : drawFrameNextStart scenes d t ≠ (drawFrameScene scenes t).startTime) :
    drawFrameSceneProgress scenes d t
      = .num (max 0 (min 1 ((t - (drawFrameScene scenes t).startTime)
          / (drawFrameNextStart scenes d t - (drawFrameScene scenes t).startTime)))) := by
  rw [drawFrameSceneProgress, jsDiv, if_neg (sub_ne_zero.mpr hne)]
  rfl

/-- The zero-length-window behaviour of the renderer's progress: the code
divides by zero, so per ECMAScript the clamped result is 0 below the start,
NaN at the start, and 1 above it. -/
lemma drawFrameSceneProgress_of_eq (scenes : List Scene) (d t : ℚ)
    (heq : drawFrameNextStart scenes d t = (drawFrameScene scenes t).startTime) :
    (t < (drawFrameScene scenes t).startTime → drawFrameSceneProgress scenes d t = .num 0)
    ∧ (t = (drawFrameScene scenes t).startTime → drawFrameSceneProgress scenes d t = .nan)
    ∧ ((drawFrameScene scenes t).startTime < t →
        drawFrameSceneProgress scenes d t = .num 1) := by
  have hz : drawFrameNextStart scenes d t - (drawFrameScene scenes t).startTime = 0 :=
    sub_eq_zero.mpr heq
  refine ⟨?_, ?_, ?_⟩
  · intro hlt
    rw [drawFrameSceneProgress, jsDiv, if_pos hz,
      if_neg (sub_ne_zero.mpr (ne_of_lt hlt)), if_neg (by linarith)]
    rfl
  · intro heqt
    rw [drawFrameSceneProgress, jsDiv, if_pos hz, if_pos (sub_eq_zero.mpr heqt)]
    rfl
  · intro hgt
    rw [drawFrameSceneProgress, jsDiv, if_pos hz,
      if_neg (sub_ne_zero.mpr (ne_of_gt hgt)), if_pos (by linarith)]
    show JSNum.num (max 0 (min 1 1)) = JSNum.num 1
    norm_num

/-- C3 (amended): for the active scene, with `start` its start time and
`end` the next scene's start (or the total duration for the last scene):
when `end ≠ start` the renderer's progress is exactly
`clamp((time - start)/(end - start), 0, 1)`, lies in `[0, 1]`, and is
non-decreasing in time across any two renderer-reachable times
(`time ≤ time' < duration`) with the same active scene; when `end = start`
the code divides by zero, so the progress is 0 below the start, NaN at the
start, and 1 only strictly above the start — not 1 everywhere. -/
theorem drawFrameSceneProgress_spec (scenes : List Scene) (d t t' : ℚ) :
    (drawFrameNextStart scenes d t ≠ (drawFrameScene scenes t).startTime →
        drawFrameSceneProgress scenes d t
          = .num (max 0 (min 1 ((t - (drawFrameScene scenes t).startTime)
              / (drawFrameNextStart scenes d t - (drawFrameScene scenes t).startTime))))
        ∧ ∃ q, drawFrameSceneProgress scenes d t = .num q ∧ 0 ≤ q ∧ q ≤ 1)
    ∧ (drawFrameNextStart scenes d t = (drawFrameScene scenes t).startTime →
        (t < (drawFrameScene scenes t).startTime →
            drawFrameSceneProgress scenes d t = .num 0)
        ∧ (t = (drawFrameScene scenes t).startTime →
            drawFrameSceneProgress scenes d t = .nan)
        ∧ ((drawFrameScene scenes t).startTime < t →
            drawFrameSceneProgress scenes d t = .num 1))
    ∧ (t ≤ t' → t' < d →
        activeSceneIndexRecorder scenes t = activeSceneIndexRecorder scenes t' →
        drawFrameNextStart scenes d t ≠ (drawFrameScene scenes t).startTime →
        ∀ q q', drawFrameSceneProgress scenes d t = .num q →
          drawFrameSceneProgress scenes d t' = .num q' → q ≤ q') := by
  refine ⟨?_, drawFrameSceneProgress_of_eq scenes d t, ?_⟩
  · intro h
    have hf := drawFrameSceneProgress_of_ne scenes d t h
    refine ⟨hf, _, hf, le_max_left _ _, max_le (by norm_num) (min_le_left _ _)⟩
  · intro htt' ht'd hR hneq q q' hq hq'
    have hs : drawFrameScene scenes t' = drawFrameScene scenes t :=
      (drawFrameScene_congr scenes t t' hR).symm
    have he : drawFrameNextStart scenes d t' = drawFrameNextStart scenes d t :=
      (drawFrameNextStart_congr scenes d t t' hR).symm
    have hneq' : drawFrameNextStart scenes d t' ≠ (drawFrameScene scenes t').startTime := by
      rw [hs, he]; exact hneq
    have hf := drawFrameSceneProgress_of_ne scenes d t hneq
    have hf' := drawFrameSceneProgress_of_ne scenes d t' hneq'
    rw [hs, he] at hf'
    have ht'e : t' < drawFrameNextStart scenes d t := by
      have := lt_drawFrameNextStart scenes d t' ht'd
      rwa [he] at this
    have hte : t < drawFrameNextStart scenes d t := lt_of_le_of_lt htt' ht'e
    rcases hneq.lt_or_lt with hlt | hgt
    · -- end < start: both times sit strictly below the (inverted) window,
      -- the ratio is ≥ 1 and both progresses clamp to exactly 1.
      have hneg : drawFrameNextStart scenes d t - (drawFrameScene scenes t).startTime < 0 :=
        sub_neg.mpr hlt
      have h1 : (1 : ℚ) ≤ (t - (drawFrameScene scenes t).startTime)
          / (drawFrameNextStart scenes d t - (drawFrameScene scenes t).startTime) := by
        rw [le_div_iff_of_neg hneg]
        linarith
      have h1' : (1 : ℚ) ≤ (t' - (drawFrameScene scenes t).startTime)
          / (drawFrameNextStart scenes d t - (drawFrameScene scenes t).startTime) := by
        rw [le_div_iff_of_neg hneg]
        linarith
      rw [hf, min_eq_left h1] at hq
      rw [hf', min_eq_left h1'] at hq'
      have hq1 : q = max 0 1 := (JSNum.num.injEq _ _).mp hq.symm
      have hq1' : q' = max 0 1 := (JSNum.num.injEq _ _).mp hq'.symm
      rw [hq1, hq1']
    · -- start < end: the clamped ratio has positive denominator and is
      -- monotone in the numerator.
      have hpos : 0 < drawFrameNextStart scenes d t - (drawFrameScene scenes t).startTime :=
        sub_pos.mpr hgt
      have hdiv : (t - (drawFrameScene scenes t).startTime)
            / (drawFrameNextStart scenes d t - (drawFrameScene scenes t).startTime)
          ≤ (t' - (drawFrameScene scenes t).startTime)
            / (drawFrameNextStart scenes d t - (drawFrameScene scenes t).startTime) :=
        (div_le_div_iff_of_pos_right hpos).mpr (by linarith)
      have hmono := max_le_max (le_refl (0 : ℚ)) (min_le_min (le_refl (1 : ℚ)) hdiv)
      rw [hf] at hq
      rw [hf'] at hq'
      have hq1 := (JSNum.num.injEq _ _).mp hq.symm
      have hq1' := (JSNum.num.injEq _ _).mp hq'.symm
      rw [hq1, hq1']
      exact hmono

/-- Shared concrete example: a single scene whose start time (5) sits at
the audio duration (5), giving a zero-length active window. -/
def exLateScene : List Scene := [⟨1, "", "", 5, none, .pending⟩]

/-- C3 counterexample: with the single scene starting at 5, duration 5 and
renderer time 3 (inside the render loop, `3 < 5`), the active scene's window
has zero length (`end = start = 5`), yet the progress is `0`, not `1` as the
claim demands. -/
theorem drawFrameSceneProgress_zero_length_counterexample :
    drawFrameNextStart exLateScene 5 3 = (drawFrameScene exLateScene 3).startTime
    ∧ (3 : ℚ) < 5
    ∧ drawFrameSceneProgress exLateScene 5 3 = .num 0
    ∧ JSNum.num 0 ≠ JSNum.num 1 :=
  ⟨by decide, by decide,
    (drawFrameSceneProgress_of_eq exLateScene 5 3 (by decide)).1 (by decide),
    by decide⟩

/-- C3 witness: on the monotone two-scene list (starts `[1, 5]`, duration
10), at times 2 and 4 (same active scene 0, window `[1, 5)`), the progress
is a rational in `[0, 1]` and is non-decreasing: `1/4 ≤ 3/4`, both obtained
from the amended theorem. -/
theorem drawFrameSceneProgress_spec_witness :
    (∃ q, drawFrameSceneProgress exMonoScenes 10 2 = .num q ∧ 0 ≤ q ∧ q ≤ 1)
    ∧ ((1 : ℚ) / 4 ≤ 3 / 4) := by
  have hq : drawFrameSceneProgress exMonoScenes 10 2 = .num (1 / 4) := by
    rw [drawFrameSceneProgress_of_ne exMonoScenes 10 2 (by decide)]
    norm_num [drawFrameScene, drawFrameNextStart, exMonoScenes, activeSceneIndexRecorder,
      reduceIndexed, reduceIndexedGo, min_def, max_def]
  have hq' : drawFrameSceneProgress exMonoScenes 10 4 = .num (3 / 4) := by
    rw [drawFrameSceneProgress_of_ne exMonoScenes 10 4 (by decide)]
    norm_num [drawFrameScene, drawFrameNextStart, exMonoScenes, activeSceneIndexRecorder,
      reduceIndexed, reduceIndexedGo, min_def, max_def]
  have h := drawFrameSceneProgress_spec exMonoScenes 10 2 4
  exact ⟨(h.1 (by decide)).2,
    h.2.2 (by norm_num) (by norm_num) (by decide) (by decide) (1 / 4) (3 / 4) hq hq'⟩
